import Mathlib

/-!
Verification of `unbabel_cli.py`: a batch moving-average computation over
timestamped events.

Embedding conventions:
* A Python `datetime` is modelled as an `Int`: the number of microseconds
  since 0001-01-01 00:00:00 (the minimum of the proleptic Gregorian calendar
  used by `datetime`).  Comparison of datetimes is integer comparison, and
  `timedelta(minutes=k)` is `k * usPerMin`.  `replace(second=0, microsecond=0)`
  zeroes the sub-minute fields, i.e. floors the instant to the start of its
  minute.
* Python numbers (`duration` values, sums, and means) are modelled as exact
  rationals `ℚ`; the specification notes that durations and window counts make
  the division exact, so `float.is_integer` corresponds to having denominator 1.
  `int.is_integer` (available on the target runtime) is likewise `den = 1`.
* The output field `date` is rendered by `strftime` at minute precision; that
  rendering is injective on minute-aligned instants, so a point carries the
  instant itself.
* Exceptions are modelled with `Except`: `PyErr` lists the failures the program
  can raise (the formatted invalid-timestamp `ValueError`, the `ValueError`
  raised by `min` of an empty sequence, and `KeyError` for a missing dict key).
-/

namespace UnbabelCli

/-- Microseconds in one minute: `timedelta(minutes=1)`. -/
def usPerMin : Int := 60000000

/-- Python `dt.replace(second=0, microsecond=0)`: floor to the start of the
minute containing `t`. -/
def floorMinute (t : Int) : Int := (t.ediv usPerMin) * usPerMin

/-! ### Calendar arithmetic (the `datetime` constructor and `strptime`) -/

/-- Gregorian leap-year rule, as used by `datetime`. -/
def isLeapYear (y : Nat) : Bool := (y % 4 == 0 && y % 100 != 0) || y % 400 == 0

/-- Number of days in month `m` (1..12) of year `y`. -/
def daysInMonth (y m : Nat) : Nat :=
  if m = 2 then (if isLeapYear y then 29 else 28)
  else if m = 4 ∨ m = 6 ∨ m = 9 ∨ m = 11 then 30
  else 31

/-- Days in year `y` strictly before month `m`. -/
def daysBeforeMonth (y m : Nat) : Nat :=
  ((List.range m).filter (fun k => 1 ≤ k)).foldl (fun acc k => acc + daysInMonth y k) 0

/-- Days from 0001-01-01 to the civil date `y-m-d` (proleptic Gregorian). -/
def daysFromCivil (y m d : Nat) : Nat :=
  365 * (y - 1) + ((y - 1) / 4 - (y - 1) / 100 + (y - 1) / 400)
    + daysBeforeMonth y m + (d - 1)

/-- The instant `y-m-d h:mi:s.us` as microseconds since 0001-01-01 00:00:00. -/
def mkTimestamp (y m d h mi s us : Nat) : Int :=
  (((daysFromCivil y m d * 24 + h) * 3600 + mi * 60 + s) * 1000000 + us : Nat)

/-! ### `datetime.strptime(s, "%Y-%m-%d %H:%M:%S.%f")`

CPython matches the format with a regex — `%Y` is exactly four digits, the
other numeric fields are one or two digits (`%f` is one to six digits) — and
then the `datetime` constructor validates the field ranges (month 1..12, day
within the month, hour 0..23, minute and second 0..59).  A failure at either
stage raises `ValueError`; the whole string must be consumed.  `%f` digits are
right-padded to six, giving microseconds. -/

/-- Numeric value of a digit character. -/
def digitVal (c : Char) : Nat := c.toNat - 48

/-- Read exactly `n` digits, accumulating their value. -/
def readFixedDigits : Nat → Nat → List Char → Option (Nat × List Char)
  | 0, acc, cs => some (acc, cs)
  | n + 1, acc, c :: cs =>
      if c.isDigit then readFixedDigits n (acc * 10 + digitVal c) cs else none
  | _ + 1, _, [] => none

/-- Greedily read up to `n` digits; returns value, digit count, rest. -/
def readFlexAux : Nat → Nat → Nat → List Char → Nat × Nat × List Char
  | 0, acc, cnt, cs => (acc, cnt, cs)
  | n + 1, acc, cnt, c :: cs =>
      if c.isDigit then readFlexAux n (acc * 10 + digitVal c) (cnt + 1) cs
      else (acc, cnt, c :: cs)
  | _ + 1, acc, cnt, [] => (acc, cnt, [])

/-- Read between one and `n` digits, greedily. -/
def readFlexDigits (n : Nat) (cs : List Char) : Option (Nat × Nat × List Char) :=
  let r := readFlexAux n 0 0 cs
  if r.2.1 = 0 then none else some r

/-- Require character `c` next. -/
def expectChar (c : Char) : List Char → Option (List Char)
  | x :: cs => if x = c then some cs else none
  | [] => none

/-- Read a one-or-two digit field followed by the literal separator `c`. -/
def readFieldSep (c : Char) (cs : List Char) : Option (Nat × List Char) :=
  match readFlexDigits 2 cs with
  | none => none
  | some (v, _, rest) =>
    match expectChar c rest with
    | none => none
    | some rest2 => some (v, rest2)

/-- Parse `YYYY-MM-DD ` (including the trailing space). -/
def readDatePart (cs : List Char) : Option (Nat × Nat × Nat × List Char) :=
  match readFixedDigits 4 0 cs with
  | none => none
  | some (y, rest) =>
    match expectChar '-' rest with
    | none => none
    | some rest2 =>
      match readFieldSep '-' rest2 with
      | none => none
      | some (mo, rest3) =>
        match readFieldSep ' ' rest3 with
        | none => none
        | some (d, rest4) => some (y, mo, d, rest4)

/-- Parse `HH:MM:SS.` (including the trailing dot). -/
def readTimePart (cs : List Char) : Option (Nat × Nat × Nat × List Char) :=
  match readFieldSep ':' cs with
  | none => none
  | some (h, rest) =>
    match readFieldSep ':' rest with
    | none => none
    | some (mi, rest2) =>
      match readFieldSep '.' rest2 with
      | none => none
      | some (sec, rest3) => some (h, mi, sec, rest3)

/-- Range validation performed by the `datetime` constructor (plus the
year lower bound; the four-digit `%Y` already caps the year at 9999). -/
def fieldsValid (y mo d h mi sec : Nat) : Bool :=
  1 ≤ y && 1 ≤ mo && mo ≤ 12 && 1 ≤ d && d ≤ daysInMonth y mo
    && h ≤ 23 && mi ≤ 59 && sec ≤ 59

/-- `datetime.strptime(s, "%Y-%m-%d %H:%M:%S.%f")`, returning the parsed
instant, or `none` where CPython raises `ValueError`. -/
def strptime (s : String) : Option Int :=
  match readDatePart s.toList with
  | none => none
  | some (y, mo, d, rest) =>
    match readTimePart rest with
    | none => none
    | some (h, mi, sec, rest2) =>
      match readFlexDigits 6 rest2 with
      | none => none
      | some (fr, nf, rest3) =>
        if rest3 = [] && fieldsValid y mo d h mi sec then
          some (mkTimestamp y mo d h mi sec (fr * 10 ^ (6 - nf)))
        else none

/-! ### Data model -/

/-- A canonical (parsed) event: the dict `{"timestamp": ..., "duration": ...}`
built by `parse_events`. -/
structure Event where
  timestamp : Int
  duration : ℚ
deriving DecidableEq

/-- A raw input record; a JSON object that may lack either key
(`none` models a missing key). -/
structure RawEvent where
  timestamp : Option String
  duration : Option ℚ
deriving DecidableEq

/-- A Python number as it appears in the serialized output: either an `int`
or a `float` (kept exact, see the module header). -/
inductive PyNum where
  | int (n : Int)
  | float (q : ℚ)
deriving DecidableEq

/-- The numeric value denoted by a `PyNum`. -/
def PyNum.toRat : PyNum → ℚ
  | .int n => n
  | .float q => q

/-- One output record `{"date": ..., "average_delivery_time": ...}`.  The
`date` field is the minute-start instant; `strftime("%Y-%m-%d %H:%M:%S")` is
injective on instants, so the instant stands for its rendering. -/
structure Point where
  date : Int
  average_delivery_time : PyNum
deriving DecidableEq

/-- The exceptions the program can raise.  `emptyInputError` is modelled from
the spec: §7 prescribes an explicit `EmptyInputError`; the constructor is part
of the taxonomy so that statements about it can be made, and the code never
raises it. -/
inductive PyErr where
  | invalidTimestamp (ev : RawEvent)
  | minEmptySeq
  | keyError (key : String)
  | emptyInputError
deriving DecidableEq

/-- Whether an exception is a Python `ValueError` (the class caught by
`main`).  `invalidTimestamp` is the explicitly raised
`ValueError("Invalid timestamp format in event: ...")`; `minEmptySeq` is the
`ValueError` raised by `min`/`max` of an empty sequence.  `KeyError` is not a
`ValueError`. -/
def PyErr.isValueError : PyErr → Bool
  | .invalidTimestamp _ => true
  | .minEmptySeq => true
  | _ => false

/-- Decidable equality of `Except` results, so concrete runs can be checked
by evaluation. -/
instance {ε α : Type} [DecidableEq ε] [DecidableEq α] : DecidableEq (Except ε α) := fun x y =>
  match x, y with
  | .ok a, .ok b => if h : a = b then isTrue (by rw [h]) else isFalse (by simp [h])
  | .error a, .error b => if h : a = b then isTrue (by rw [h]) else isFalse (by simp [h])
  | .ok _, .error _ => isFalse (by simp)
  | .error _, .ok _ => isFalse (by simp)

/-! ### `parse_events` (lines 36-58)

The loop reads `event["timestamp"]` (a missing key raises `KeyError`, which
the `try` does not catch — it catches only `ValueError`), parses it with
`strptime` (failure is re-raised as the formatted `ValueError`), reads
`event["duration"]` (again `KeyError` if missing), and appends the parsed
dict; the first exception aborts the whole call. -/

def parse_events : List RawEvent → Except PyErr (List Event)
  | [] => .ok []
  | ev :: rest =>
    match ev.timestamp with
    | none => .error (.keyError "timestamp")
    | some s =>
      match strptime s with
      | none => .error (.invalidTimestamp ev)
      | some ts =>
        match ev.duration with
        | none => .error (.keyError "duration")
        | some d =>
          match parse_events rest with
          | .error e => .error e
          | .ok tail => .ok (⟨ts, d⟩ :: tail)

/-- A record that carries both required keys. -/
def hasKeys (r : RawEvent) : Bool := r.timestamp.isSome && r.duration.isSome

/-- Whether a record's timestamp key is present and its string parses against
the required format. -/
def recordParses (r : RawEvent) : Bool :=
  match r.timestamp with
  | none => false
  | some s => (strptime s).isSome

/-! ### `calculate_moving_average` (lines 60-98) -/

/-- Line 83: the list comprehension
`[event for event in events if window_start <= event["timestamp"] <= t]`. -/
def eventsInWindow (events : List Event) (window_start t : Int) : List Event :=
  events.filter fun e => decide (window_start ≤ e.timestamp ∧ e.timestamp ≤ t)

/-- Exact rational addition, written with `Rat.divInt` so that it evaluates
under kernel reduction (the library `Rat.add` is irreducible); proved equal to
`+` in `pyAdd_eq`. -/
def pyAdd (a b : ℚ) : ℚ := Rat.divInt (a.num * b.den + b.num * a.den) (a.den * b.den)

/-- Exact rational division, likewise reducible; proved equal to `/` in
`pyDiv_eq`. -/
def pyDiv (a b : ℚ) : ℚ := Rat.divInt (a.num * b.den) (a.den * b.num)

/-- Python `sum(...)`: a left fold of addition starting from `0`. -/
def pySum (l : List ℚ) : ℚ := l.foldl pyAdd 0

/-- Line 89: `sum(event["duration"] for event in events_in_window) /
len(events_in_window)`. -/
def listMean (l : List Event) : ℚ :=
  pyDiv (pySum (l.map Event.duration)) (Rat.ofInt l.length)

/-- Lines 88-91 as a value: the mean of a window, `0` when it is empty. -/
def avgOf (l : List Event) : ℚ :=
  if l ≠ [] then listMean l else 0

/-- Line 94: `int(avg) if avg.is_integer() else avg`.  A rational is a whole
number exactly when its denominator is `1`, in which case `int` truncation
gives its numerator. -/
def render (q : ℚ) : PyNum :=
  if q.den = 1 then .int q.num else .float q

/-- Lines 80-96: the `while earliest_timestamp <= latest_timestamp` loop.
State: `t` is the loop variable `earliest_timestamp`, `cur` is
`current_events_in_window`, `avg` is `average_delivery_time`.  The fuel is the
exact number of iterations, supplied by the caller; the loop condition is
still tested each round. -/
def maLoop (events : List Event) (window_size latest : Int) :
    Nat → Int → List Event → ℚ → List Point
  | 0, _, _, _ => []
  | fuel + 1, t, cur, avg =>
    if t ≤ latest then
      let inW := eventsInWindow events (t - window_size * usPerMin) t
      if inW ≠ cur then
        let avg2 := if inW ≠ [] then listMean inW else 0
        ⟨t, render avg2⟩ :: maLoop events window_size latest fuel (t + usPerMin) inW avg2
      else
        ⟨t, render avg⟩ :: maLoop events window_size latest fuel (t + usPerMin) cur avg
    else []

/-- Lines 60-98.  `min`/`max` of an empty sequence raise `ValueError`; on a
non-empty input the loop runs from the floored minimum to the floored maximum
plus one minute, inclusive. -/
def calculate_moving_average (events : List Event) (window_size : Int) :
    Except PyErr (List Point) :=
  match (events.map Event.timestamp).min? with
  | none => .error .minEmptySeq
  | some mn =>
    match (events.map Event.timestamp).max? with
    | none => .error .minEmptySeq
    | some mx =>
      let earliest := floorMinute mn
      let latest := floorMinute mx + usPerMin
      .ok (maLoop events window_size latest
        ((latest - earliest).toNat / 60000000 + 1) earliest [] 0)

/-! ### Naive reference variant (for the refinement claim)

Modelled from the spec: §4.2 defines the scanner as a stateless fold that
re-evaluates window membership and the mean independently at each minute,
with no caching of an unchanged window. -/

/-- The stateless per-minute scan of §4.2. -/
def naiveLoop (events : List Event) (window_size latest : Int) :
    Nat → Int → List Point
  | 0, _ => []
  | fuel + 1, t =>
    if t ≤ latest then
      ⟨t, render (avgOf (eventsInWindow events (t - window_size * usPerMin) t))⟩ ::
        naiveLoop events window_size latest fuel (t + usPerMin)
    else []

/-- Modelled from the spec: `calculate_moving_average` with the stateless
scanner of §4.2 in place of the caching loop. -/
def calculate_moving_average_naive (events : List Event) (window_size : Int) :
    Except PyErr (List Point) :=
  match (events.map Event.timestamp).min? with
  | none => .error .minEmptySeq
  | some mn =>
    match (events.map Event.timestamp).max? with
    | none => .error .minEmptySeq
    | some mx =>
      let earliest := floorMinute mn
      let latest := floorMinute mx + usPerMin
      .ok (naiveLoop events window_size latest
        ((latest - earliest).toNat / 60000000 + 1) earliest)

/-! ### `main` (lines 100-120) -/

/-- The observable outcome of `main` after the input file has been read:
either the output file is written with the serialized points, or a
`ValueError` from `parse_events` is caught, printed and the run returns
without writing, or an uncaught exception crashes the process (also writing
nothing).  Only `parse_events` sits inside the `try/except ValueError`. -/
inductive MainResult where
  | wrote (content : List Point)
  | parseErrorReported (e : PyErr)
  | crashed (e : PyErr)
deriving DecidableEq

/-- Lines 100-117, from the parsed JSON value onwards. -/
def main (events_data : List RawEvent) (window_size : Int) : MainResult :=
  match parse_events events_data with
  | .error e => if e.isValueError then .parseErrorReported e else .crashed e
  | .ok events =>
    match calculate_moving_average events window_size with
    | .error e => .crashed e
    | .ok pts => .wrote pts

/-! ### Store-threaded variants (framing)

To state that the functions do not mutate their input collection, the input
list is treated as a mutable store threaded through every iteration: each
step reads from the store (`parse_events` by index, as the `for` loop does;
the window filter reads the whole store) and passes the store it finished
with to the next step, so an embedding of a mutating loop would return a
changed store.  The source never writes, and the theorems show the store
comes back unchanged and the result agrees with the direct definitions. -/

/-- The `for event in events` loop of `parse_events`, reading record `i` of
the store each iteration and appending to `parsed_events` (modelled as a
reversed accumulator). -/
def parseLoopSt (store : List RawEvent) :
    Nat → Nat → List Event → List RawEvent × Except PyErr (List Event)
  | 0, _, acc => (store, .ok acc.reverse)
  | fuel + 1, i, acc =>
    match store[i]? with
    | none => (store, .ok acc.reverse)
    | some ev =>
      match ev.timestamp with
      | none => (store, .error (.keyError "timestamp"))
      | some s =>
        match strptime s with
        | none => (store, .error (.invalidTimestamp ev))
        | some ts =>
          match ev.duration with
          | none => (store, .error (.keyError "duration"))
          | some d => parseLoopSt store fuel (i + 1) (⟨ts, d⟩ :: acc)

/-- `parse_events` with the input collection as a threaded store. -/
def parse_events_run (events : List RawEvent) :
    List RawEvent × Except PyErr (List Event) :=
  parseLoopSt events events.length 0 []

/-- The while-loop of `calculate_moving_average` with the event collection as
a threaded store. -/
def maLoopSt (window_size latest : Int) :
    Nat → Int → List Event → ℚ → List Event → List Event × List Point
  | 0, _, _, _, store => (store, [])
  | fuel + 1, t, cur, avg, store =>
    if t ≤ latest then
      let inW := eventsInWindow store (t - window_size * usPerMin) t
      if inW ≠ cur then
        let avg2 := if inW ≠ [] then listMean inW else 0
        let r := maLoopSt window_size latest fuel (t + usPerMin) inW avg2 store
        (r.1, ⟨t, render avg2⟩ :: r.2)
      else
        let r := maLoopSt window_size latest fuel (t + usPerMin) cur avg store
        (r.1, ⟨t, render avg⟩ :: r.2)
    else (store, [])

/-- `calculate_moving_average` with the event collection as a threaded
store. -/
def calculate_moving_average_run (events : List Event) (window_size : Int) :
    List Event × Except PyErr (List Point) :=
  match (events.map Event.timestamp).min? with
  | none => (events, .error .minEmptySeq)
  | some mn =>
    match (events.map Event.timestamp).max? with
    | none => (events, .error .minEmptySeq)
    | some mx =>
      let earliest := floorMinute mn
      let latest := floorMinute mx + usPerMin
      let r := maLoopSt window_size latest
        ((latest - earliest).toNat / 60000000 + 1) earliest [] 0 events
      (r.1, .ok r.2)

/-! ## Lemmas -/

/-! ### Arithmetic bridges: the reducible operations agree with `+`, `/` -/

theorem pyAdd_eq (a b : ℚ) : pyAdd a b = a + b := by
  have ha : (a.den : ℤ) ≠ 0 := by exact_mod_cast a.den_ne_zero
  have hb : (b.den : ℤ) ≠ 0 := by exact_mod_cast b.den_ne_zero
  conv_rhs => rw [← Rat.num_divInt_den a, ← Rat.num_divInt_den b]
  rw [Rat.divInt_add_divInt _ _ ha hb, pyAdd]

theorem pyDiv_eq (a b : ℚ) : pyDiv a b = a / b := by
  rw [Rat.div_def', pyDiv]

theorem pySum_foldl (l : List ℚ) : ∀ c : ℚ, l.foldl pyAdd c = c + l.sum := by
  induction l with
  | nil => intro c; simp
  | cons x xs ih => intro c; simp only [List.foldl_cons, pyAdd_eq, ih, List.sum_cons]; ring

theorem pySum_eq (l : List ℚ) : pySum l = l.sum := by
  rw [pySum, pySum_foldl]; ring

theorem listMean_eq (l : List Event) :
    listMean l = (l.map Event.duration).sum / (l.length : ℚ) := by
  rw [listMean, pyDiv_eq, pySum_eq, Rat.ofInt_eq_cast]
  norm_num

theorem toRat_render (q : ℚ) : (render q).toRat = q := by
  rw [render]
  split
  · next h => exact (Rat.den_eq_one_iff q).mp h
  · rfl

theorem render_zero : render 0 = PyNum.int 0 := rfl

/-! ### Window membership -/

theorem mem_eventsInWindow {events : List Event} {a b : Int} {e : Event} :
    e ∈ eventsInWindow events a b ↔ e ∈ events ∧ a ≤ e.timestamp ∧ e.timestamp ≤ b := by
  simp [eventsInWindow, List.mem_filter]

/-! ### The caching loop agrees with the stateless scan -/

theorem maLoop_eq_naiveLoop (events : List Event) (w latest : Int) :
    ∀ (fuel : Nat) (t : Int) (cur : List Event) (avg : ℚ),
      avg = avgOf cur →
      maLoop events w latest fuel t cur avg = naiveLoop events w latest fuel t := by
  intro fuel
  induction fuel with
  | zero => intro t cur avg _; rfl
  | succ fuel ih =>
    intro t cur avg h
    simp only [avgOf] at h
    simp only [maLoop, naiveLoop, avgOf]
    by_cases ht : t ≤ latest
    · rw [if_pos ht, if_pos ht]
      by_cases hc : eventsInWindow events (t - w * usPerMin) t ≠ cur
      · rw [if_pos hc]
        exact congrArg _ (ih _ _ _ (by simp [avgOf]))
      · rw [if_neg hc]
        push_neg at hc
        rw [hc, ← h, ih _ _ _ (by rw [h, avgOf])]
    · rw [if_neg ht, if_neg ht]

theorem calc_eq_naive (events : List Event) (w : Int) :
    calculate_moving_average events w = calculate_moving_average_naive events w := by
  unfold calculate_moving_average calculate_moving_average_naive
  cases (events.map Event.timestamp).min? with
  | none => rfl
  | some mn =>
    cases (events.map Event.timestamp).max? with
    | none => rfl
    | some mx =>
      simp only
      exact congrArg _ (maLoop_eq_naiveLoop _ _ _ _ _ _ _ (by simp [avgOf]))

/-! ### Shape of the stateless scan -/

theorem naiveLoop_dates (events : List Event) (w latest : Int) :
    ∀ (fuel : Nat) (t : Int),
      t + usPerMin * fuel = latest + usPerMin →
      (naiveLoop events w latest fuel t).map Point.date =
        (List.range fuel).map (fun i : Nat => t + (i : Int) * usPerMin) := by
  intro fuel
  induction fuel with
  | zero => intro t _; rfl
  | succ fuel ih =>
    intro t hfuel
    have ht : t ≤ latest := by
      simp only [usPerMin] at hfuel
      omega
    rw [naiveLoop, if_pos ht, List.range_succ_eq_map]
    simp only [List.map_cons, List.map_map, List.map_cons, Nat.cast_zero, zero_mul, add_zero]
    refine List.cons_eq_cons.mpr ⟨rfl, ?_⟩
    rw [ih (t + usPerMin) (by simp only [usPerMin] at hfuel ⊢; push_cast at hfuel ⊢; omega)]
    apply List.map_congr_left
    intro i _
    simp only [Function.comp_apply]
    push_cast
    ring

theorem naiveLoop_avg (events : List Event) (w latest : Int) :
    ∀ (fuel : Nat) (t : Int), ∀ p ∈ naiveLoop events w latest fuel t,
      p.average_delivery_time =
        render (avgOf (eventsInWindow events (p.date - w * usPerMin) p.date)) := by
  intro fuel
  induction fuel with
  | zero => intro t p hp; cases hp
  | succ fuel ih =>
    intro t p hp
    rw [naiveLoop] at hp
    by_cases ht : t ≤ latest
    · rw [if_pos ht] at hp
      rcases List.mem_cons.mp hp with h | h
      · subst h; rfl
      · exact ih _ p h
    · rw [if_neg ht] at hp; cases hp

/-! ### Top-level shape of `calculate_moving_average` -/

theorem min?_spec {l : List Int} {a : Int} (h : l.min? = some a) :
    a ∈ l ∧ ∀ b ∈ l, a ≤ b := by
  have anti : Std.Antisymm ((· : Int) ≤ ·) := ⟨fun h1 h2 => le_antisymm h1 h2⟩
  rw [List.min?_eq_some_iff (fun _ => le_refl _) (fun _ _ => min_choice _ _)
    (fun _ _ _ => le_min_iff)] at h
  exact ⟨h.1, h.2⟩

theorem max?_spec {l : List Int} {a : Int} (h : l.max? = some a) :
    a ∈ l ∧ ∀ b ∈ l, b ≤ a := by
  have anti : Std.Antisymm ((· : Int) ≤ ·) := ⟨fun h1 h2 => le_antisymm h1 h2⟩
  rw [List.max?_eq_some_iff (fun _ => le_refl _) (fun _ _ => max_choice _ _)
    (fun _ _ _ => max_le_iff)] at h
  exact ⟨h.1, h.2⟩

theorem calc_ok {events : List Event} {w mn mx : Int}
    (hmn : (events.map Event.timestamp).min? = some mn)
    (hmx : (events.map Event.timestamp).max? = some mx) :
    calculate_moving_average events w =
      .ok (naiveLoop events w (floorMinute mx + usPerMin)
        ((floorMinute mx + usPerMin - floorMinute mn).toNat / 60000000 + 1)
        (floorMinute mn)) := by
  unfold calculate_moving_average
  rw [hmn, hmx]
  simp only
  exact congrArg _ (maLoop_eq_naiveLoop _ _ _ _ _ _ _ (by simp [avgOf]))

theorem fuel_exact {mn mx : Int} (h : mn ≤ mx) :
    floorMinute mn +
        usPerMin * (((floorMinute mx + usPerMin - floorMinute mn).toNat / 60000000 + 1 : Nat) : Int)
      = (floorMinute mx + usPerMin) + usPerMin := by
  have hdiv : mn.ediv 60000000 ≤ mx.ediv 60000000 :=
    Int.ediv_le_ediv (by norm_num) h
  simp only [floorMinute, usPerMin]
  have hk : (mx.ediv 60000000 * 60000000 + 60000000 - mn.ediv 60000000 * 60000000).toNat
      = ((mx.ediv 60000000 - mn.ediv 60000000).toNat + 1) * 60000000 := by
    omega
  rw [hk, Nat.mul_div_cancel _ (by norm_num : 0 < 60000000)]
  push_cast
  omega

theorem calc_point_spec {events : List Event} {w : Int} {pts : List Point}
    (hok : calculate_moving_average events w = .ok pts) :
    ∀ p ∈ pts, p.average_delivery_time =
      render (avgOf (eventsInWindow events (p.date - w * usPerMin) p.date)) := by
  cases hmn : (events.map Event.timestamp).min? with
  | none => unfold calculate_moving_average at hok; rw [hmn] at hok; simp at hok
  | some mn =>
    cases hmx : (events.map Event.timestamp).max? with
    | none => unfold calculate_moving_average at hok; rw [hmn, hmx] at hok; simp at hok
    | some mx =>
      rw [calc_ok hmn hmx] at hok
      injection hok with hok
      rw [← hok]
      exact naiveLoop_avg _ _ _ _ _

/-! ### `parse_events` control flow -/

theorem parse_ok_of_all {records : List RawEvent}
    (h : ∀ r ∈ records, hasKeys r = true ∧ recordParses r = true) :
    ∃ evs, parse_events records = .ok evs := by
  induction records with
  | nil => exact ⟨[], rfl⟩
  | cons ev rest ih =>
    obtain ⟨hk, hp⟩ := h ev (List.mem_cons_self ev rest)
    cases hts : ev.timestamp with
    | none => simp [recordParses, hts] at hp
    | some s =>
      cases hst : strptime s with
      | none => simp [recordParses, hts, hst] at hp
      | some ts =>
        cases hd : ev.duration with
        | none => simp [hasKeys, hts, hd] at hk
        | some d =>
          obtain ⟨evs, hevs⟩ := ih fun r hr => h r (List.mem_cons_of_mem _ hr)
          exact ⟨⟨ts, d⟩ :: evs, by simp [parse_events, hts, hst, hd, hevs]⟩

theorem parse_first_bad {records : List RawEvent}
    (hkeys : ∀ r ∈ records, hasKeys r = true)
    (hbad : ∃ r ∈ records, recordParses r = false) :
    ∃ pre bad post, records = pre ++ bad :: post ∧
      (∀ x ∈ pre, recordParses x = true) ∧ recordParses bad = false ∧
      parse_events records = .error (.invalidTimestamp bad) := by
  induction records with
  | nil => simp at hbad
  | cons ev rest ih =>
    by_cases hev : recordParses ev = true
    · have hbad2 : ∃ r ∈ rest, recordParses r = false := by
        rcases hbad with ⟨r, hr, hrf⟩
        rcases List.mem_cons.mp hr with rfl | hr2
        · rw [hev] at hrf; cases hrf
        · exact ⟨r, hr2, hrf⟩
      obtain ⟨pre, bad, post, hsplit, hpre, hbadf, herr⟩ :=
        ih (fun r hr => hkeys r (List.mem_cons_of_mem _ hr)) hbad2
      cases hts : ev.timestamp with
      | none => simp [recordParses, hts] at hev
      | some s =>
        cases hst : strptime s with
        | none => simp [recordParses, hts, hst] at hev
        | some ts =>
          cases hd : ev.duration with
          | none =>
            have hk := hkeys ev (List.mem_cons_self ev rest)
            rw [hasKeys, hts, hd] at hk; cases hk
          | some d =>
            refine ⟨ev :: pre, bad, post, by simp [hsplit], ?_, hbadf, ?_⟩
            · intro x hx
              rcases List.mem_cons.mp hx with rfl | hx2
              · exact hev
              · exact hpre x hx2
            · simp [parse_events, hts, hst, hd, herr]
    · have hk := hkeys ev (List.mem_cons_self ev rest)
      cases hts : ev.timestamp with
      | none => simp [hasKeys, hts] at hk
      | some s =>
        cases hst : strptime s with
        | some ts =>
          exfalso; exact hev (by simp [recordParses, hts, hst])
        | none =>
          refine ⟨[], ev, rest, rfl, by simp, ?_, ?_⟩
          · simp [recordParses, hts, hst]
          · simp [parse_events, hts, hst]

theorem parse_append_good {pre l : List RawEvent} {e : PyErr}
    (hpre : ∀ x ∈ pre, hasKeys x = true ∧ recordParses x = true)
    (herr : parse_events l = .error e) :
    parse_events (pre ++ l) = .error e := by
  induction pre with
  | nil => simpa using herr
  | cons ev rest ih =>
    obtain ⟨hk, hp⟩ := hpre ev (List.mem_cons_self ev rest)
    cases hts : ev.timestamp with
    | none => simp [recordParses, hts] at hp
    | some s =>
      cases hst : strptime s with
      | none => simp [recordParses, hts, hst] at hp
      | some ts =>
        cases hd : ev.duration with
        | none => simp [hasKeys, hts, hd] at hk
        | some d =>
          have := ih fun r hr => hpre r (List.mem_cons_of_mem _ hr)
          simp [parse_events, hts, hst, hd, this]

theorem parse_missing_key_head {bad : RawEvent} {post : List RawEvent}
    (hbad : bad.timestamp = none ∨
      ∃ s t, bad.timestamp = some s ∧ strptime s = some t ∧ bad.duration = none) :
    ∃ k, parse_events (bad :: post) = .error (.keyError k) := by
  rcases hbad with hts | ⟨s, t, hts, hst, hd⟩
  · exact ⟨"timestamp", by simp [parse_events, hts]⟩
  · exact ⟨"duration", by simp [parse_events, hts, hst, hd]⟩

/-! ### Store threading: the loops return the store unchanged and agree with
the direct definitions -/

theorem parseLoopSt_store (store : List RawEvent) :
    ∀ (fuel i : Nat) (acc : List Event), (parseLoopSt store fuel i acc).1 = store := by
  intro fuel
  induction fuel with
  | zero => intro i acc; rfl
  | succ fuel ih =>
    intro i acc
    rw [parseLoopSt]
    cases store[i]? with
    | none => rfl
    | some ev =>
      cases hts : ev.timestamp with
      | none => simp [hts]
      | some s =>
        cases hst : strptime s with
        | none => simp [hts, hst]
        | some ts =>
          cases hd : ev.duration with
          | none => simp [hts, hst, hd]
          | some d =>
            simp only [hts, hst, hd]
            exact ih (i + 1) _

theorem parseLoopSt_agree (store : List RawEvent) :
    ∀ (fuel i : Nat) (acc : List Event), fuel + i = store.length →
      (parseLoopSt store fuel i acc).2 =
        (parse_events (store.drop i)).map (acc.reverse ++ ·) := by
  intro fuel
  induction fuel with
  | zero =>
    intro i acc hlen
    have : store.drop i = [] := List.drop_eq_nil_of_le (by omega)
    simp [parseLoopSt, this, parse_events, Except.map]
  | succ fuel ih =>
    intro i acc hlen
    have hi : i < store.length := by omega
    have hdrop : store.drop i = store[i] :: store.drop (i + 1) :=
      (List.getElem_cons_drop store i hi).symm
    rw [parseLoopSt, List.getElem?_eq_getElem hi, hdrop]
    cases hts : store[i].timestamp with
    | none => simp [parse_events, hts, Except.map]
    | some s =>
      cases hst : strptime s with
      | none => simp [parse_events, hts, hst, Except.map]
      | some ts =>
        cases hd : store[i].duration with
        | none => simp [parse_events, hts, hst, hd, Except.map]
        | some d =>
          simp only [hts, hst, hd]
          rw [ih (i + 1) (⟨ts, d⟩ :: acc) (by omega)]
          cases hres : parse_events (store.drop (i + 1)) with
          | error e => simp [parse_events, hts, hst, hd, hres, Except.map]
          | ok tail => simp [parse_events, hts, hst, hd, hres, Except.map]

theorem parse_events_run_spec (records : List RawEvent) :
    parse_events_run records = (records, parse_events records) := by
  have h1 := parseLoopSt_store records records.length 0 []
  have h2 := parseLoopSt_agree records records.length 0 [] (by omega)
  rw [List.drop_zero] at h2
  rw [parse_events_run, ← @Prod.mk.eta _ _ (parseLoopSt records records.length 0 []), h1, h2]
  cases hres : parse_events records with
  | error e => simp [Except.map]
  | ok evs => simp [Except.map]

theorem maLoopSt_spec (w latest : Int) :
    ∀ (fuel : Nat) (t : Int) (cur : List Event) (avg : ℚ) (store : List Event),
      maLoopSt w latest fuel t cur avg store =
        (store, maLoop store w latest fuel t cur avg) := by
  intro fuel
  induction fuel with
  | zero => intro t cur avg store; rfl
  | succ fuel ih =>
    intro t cur avg store
    simp only [maLoopSt, maLoop]
    by_cases ht : t ≤ latest
    · rw [if_pos ht, if_pos ht]
      by_cases hc : eventsInWindow store (t - w * usPerMin) t ≠ cur
      · rw [if_pos hc, if_pos hc, ih]
      · rw [if_neg hc, if_neg hc, ih]
    · rw [if_neg ht, if_neg ht]

theorem calculate_moving_average_run_spec (events : List Event) (w : Int) :
    calculate_moving_average_run events w = (events, calculate_moving_average events w) := by
  unfold calculate_moving_average_run calculate_moving_average
  cases (events.map Event.timestamp).min? with
  | none => rfl
  | some mn =>
    cases (events.map Event.timestamp).max? with
    | none => rfl
    | some mx => simp only [maLoopSt_spec]

/-! ## Claims -/

/-- C1: for every non-empty list of parsed events (non-emptiness given by
naming the minimum timestamp `mn` and maximum timestamp `mx`) and every
positive window size, `calculate_moving_average` succeeds and returns exactly
`minutesBetween(floorMinute mn, floorMinute mx + 1 minute) + 1` points, whose
`date` values are the ascending arithmetic progression starting at
`floorMinute mn` with steps of exactly 60 seconds and no minute skipped, each
date truncated to a whole minute (divisible by one minute, so its rendering
has seconds `00`). -/
theorem claim1_density (events : List Event) (w mn mx : Int)
    (hmn : (events.map Event.timestamp).min? = some mn)
    (hmx : (events.map Event.timestamp).max? = some mx)
    (hw : 0 < w) :
    ∃ pts, calculate_moving_average events w = .ok pts ∧
      (pts.length : Int) = (floorMinute mx + usPerMin - floorMinute mn) / usPerMin + 1 ∧
      pts.map Point.date =
        (List.range pts.length).map (fun i : Nat => floorMinute mn + (i : Int) * usPerMin) ∧
      ∀ p ∈ pts, usPerMin ∣ p.date := by
  have hle : mn ≤ mx := (min?_spec hmn).2 mx (max?_spec hmx).1
  have hfe := fuel_exact hle
  refine ⟨naiveLoop events w (floorMinute mx + usPerMin)
    ((floorMinute mx + usPerMin - floorMinute mn).toNat / 60000000 + 1)
    (floorMinute mn), calc_ok hmn hmx, ?_⟩
  have hdate := naiveLoop_dates events w (floorMinute mx + usPerMin)
    ((floorMinute mx + usPerMin - floorMinute mn).toNat / 60000000 + 1)
    (floorMinute mn) hfe
  have hlen : (naiveLoop events w (floorMinute mx + usPerMin)
      ((floorMinute mx + usPerMin - floorMinute mn).toNat / 60000000 + 1)
      (floorMinute mn)).length =
      (floorMinute mx + usPerMin - floorMinute mn).toNat / 60000000 + 1 := by
    have := congrArg List.length hdate
    simpa using this
  refine ⟨?_, ?_, ?_⟩
  · rw [hlen]
    have h3 : usPerMin *
        (((floorMinute mx + usPerMin - floorMinute mn).toNat / 60000000 + 1 : Nat) : Int) =
        floorMinute mx + usPerMin + usPerMin - floorMinute mn := by
      linarith [hfe]
    have h2 : floorMinute mx + usPerMin - floorMinute mn =
        usPerMin *
          ((((floorMinute mx + usPerMin - floorMinute mn).toNat / 60000000 + 1 : Nat) : Int)
            - 1) := by
      calc floorMinute mx + usPerMin - floorMinute mn
          = usPerMin *
              (((floorMinute mx + usPerMin - floorMinute mn).toNat / 60000000 + 1 : Nat) : Int)
            - usPerMin := by linarith [h3]
        _ = _ := by ring
    conv_rhs => rw [h2, Int.mul_ediv_cancel_left _
      (by norm_num [usPerMin] : (usPerMin : Int) ≠ 0)]
    ring
  · rw [hlen, hdate]
  · intro p hp
    have hpd : p.date ∈ (naiveLoop events w (floorMinute mx + usPerMin)
        ((floorMinute mx + usPerMin - floorMinute mn).toNat / 60000000 + 1)
        (floorMinute mn)).map Point.date := List.mem_map_of_mem Point.date hp
    rw [hdate] at hpd
    obtain ⟨i, _, hi⟩ := List.mem_map.mp hpd
    rw [← hi]
    exact dvd_add (Dvd.intro_left _ rfl) (Dvd.intro_left _ rfl)

/-- C1 witness: a single event at 00:01:30 (90000000 microseconds) with window
size 1 yields two minute points. -/
theorem claim1_density_witness :
    ((([⟨90000000, 3⟩] : List Event).map Event.timestamp).min? = some 90000000) ∧
    ((([⟨90000000, 3⟩] : List Event).map Event.timestamp).max? = some 90000000) ∧
    ((0 : Int) < 1) ∧
    (∃ pts, calculate_moving_average [⟨90000000, 3⟩] 1 = .ok pts ∧
      (pts.length : Int) = (floorMinute 90000000 + usPerMin - floorMinute 90000000) / usPerMin + 1 ∧
      pts.map Point.date =
        (List.range pts.length).map (fun i : Nat => floorMinute 90000000 + (i : Int) * usPerMin) ∧
      ∀ p ∈ pts, usPerMin ∣ p.date) :=
  ⟨by decide, by decide, by decide,
    claim1_density [⟨90000000, 3⟩] 1 90000000 90000000 (by decide) (by decide) (by decide)⟩

/-- C2: for every minute `t` emitted by `calculate_moving_average`, the value
emitted at `t` is computed from the window `[t - windowSize, t]`, and that
window is inclusive at both ends: an input event with timestamp exactly
`t - windowSize` minutes or exactly `t` belongs to the set averaged for `t`,
while one a microsecond outside either bound does not. -/
theorem claim2_boundary (events : List Event) (w : Int) (pts : List Point) (p : Point)
    (hw : 0 < w)
    (hok : calculate_moving_average events w = .ok pts) (hp : p ∈ pts) :
    p.average_delivery_time =
      render (avgOf (eventsInWindow events (p.date - w * usPerMin) p.date)) ∧
    (∀ e ∈ events, (e.timestamp = p.date - w * usPerMin ∨ e.timestamp = p.date) →
      e ∈ eventsInWindow events (p.date - w * usPerMin) p.date) ∧
    (∀ e ∈ events, (e.timestamp = p.date - w * usPerMin - 1 ∨ e.timestamp = p.date + 1) →
      e ∉ eventsInWindow events (p.date - w * usPerMin) p.date) := by
  have hwu : 0 < w * usPerMin := mul_pos hw (by norm_num [usPerMin])
  refine ⟨calc_point_spec hok p hp, ?_, ?_⟩
  · intro e he h
    refine mem_eventsInWindow.mpr ⟨he, ?_⟩
    rcases h with h | h <;> omega
  · intro e _ h hmem
    have h2 := (mem_eventsInWindow.mp hmem).2
    rcases h with h | h <;> omega

/-- C2 witness: a single event at minute 1; the first emitted point. -/
theorem claim2_boundary_witness :
    ((0 : Int) < 1) ∧
    (calculate_moving_average [⟨60000000, 5⟩] 1 =
      .ok [⟨60000000, .int 5⟩, ⟨120000000, .int 5⟩]) ∧
    ((⟨60000000, .int 5⟩ : Point) ∈ [(⟨60000000, .int 5⟩ : Point), ⟨120000000, .int 5⟩]) ∧
    ((Point.average_delivery_time ⟨60000000, .int 5⟩ =
      render (avgOf (eventsInWindow [⟨60000000, 5⟩]
        (Point.date ⟨60000000, .int 5⟩ - 1 * usPerMin) (Point.date ⟨60000000, .int 5⟩)))) ∧
    (∀ e ∈ [(⟨60000000, 5⟩ : Event)],
      (e.timestamp = Point.date ⟨60000000, .int 5⟩ - 1 * usPerMin ∨
        e.timestamp = Point.date ⟨60000000, .int 5⟩) →
      e ∈ eventsInWindow [⟨60000000, 5⟩]
        (Point.date ⟨60000000, .int 5⟩ - 1 * usPerMin) (Point.date ⟨60000000, .int 5⟩)) ∧
    (∀ e ∈ [(⟨60000000, 5⟩ : Event)],
      (e.timestamp = Point.date ⟨60000000, .int 5⟩ - 1 * usPerMin - 1 ∨
        e.timestamp = Point.date ⟨60000000, .int 5⟩ + 1) →
      e ∉ eventsInWindow [⟨60000000, 5⟩]
        (Point.date ⟨60000000, .int 5⟩ - 1 * usPerMin) (Point.date ⟨60000000, .int 5⟩))) :=
  ⟨by decide, by decide, by decide,
    claim2_boundary [⟨60000000, 5⟩] 1 [⟨60000000, .int 5⟩, ⟨120000000, .int 5⟩]
      ⟨60000000, .int 5⟩ (by decide) (by decide) (by decide)⟩

/-- C3 counterexample: on the spec scenario (events at 00:00:30 with duration
10 and 00:01:30 with duration 20, window 1), the code does not return the
four claimed points `00:00:00, 00:01:00, 00:02:00, 00:03:00`. -/
theorem claim3_counterexample :
    calculate_moving_average
        [⟨mkTimestamp 2023 1 1 0 0 30 0, 10⟩, ⟨mkTimestamp 2023 1 1 0 1 30 0, 20⟩] 1 ≠
      .ok [⟨mkTimestamp 2023 1 1 0 0 0 0, .int 0⟩,
           ⟨mkTimestamp 2023 1 1 0 1 0 0, .int 10⟩,
           ⟨mkTimestamp 2023 1 1 0 2 0 0, .int 20⟩,
           ⟨mkTimestamp 2023 1 1 0 3 0 0, .int 0⟩] := by decide

/-- C3 amended: on that scenario the output is the three points
`00:00:00 -> 0`, `00:01:00 -> 10`, `00:02:00 -> 20`; the range stops at
`floor(max) + 1 minute = 00:02:00`, so no `00:03:00` point exists. -/
theorem claim3_amended :
    calculate_moving_average
        [⟨mkTimestamp 2023 1 1 0 0 30 0, 10⟩, ⟨mkTimestamp 2023 1 1 0 1 30 0, 20⟩] 1 =
      .ok [⟨mkTimestamp 2023 1 1 0 0 0 0, .int 0⟩,
           ⟨mkTimestamp 2023 1 1 0 1 0 0, .int 10⟩,
           ⟨mkTimestamp 2023 1 1 0 2 0 0, .int 20⟩] := by decide

/-- C4: every emitted minute whose window holds no event gets
`average_delivery_time = 0` (the integer zero), and every minute with a
non-empty window gets the arithmetic mean of the durations of the events in
its window. -/
theorem claim4_empty_and_mean (events : List Event) (w : Int) (pts : List Point) (p : Point)
    (hok : calculate_moving_average events w = .ok pts) (hp : p ∈ pts) :
    (eventsInWindow events (p.date - w * usPerMin) p.date = [] →
      p.average_delivery_time = PyNum.int 0) ∧
    (eventsInWindow events (p.date - w * usPerMin) p.date ≠ [] →
      p.average_delivery_time.toRat =
        ((eventsInWindow events (p.date - w * usPerMin) p.date).map Event.duration).sum /
          ((eventsInWindow events (p.date - w * usPerMin) p.date).length : ℚ)) := by
  have hspec := calc_point_spec hok p hp
  constructor
  · intro hemp
    rw [hspec, hemp]
    simp [avgOf, render_zero]
  · intro hne
    rw [hspec, toRat_render, avgOf, if_pos hne, listMean_eq]

/-- C4 witness: one event at minute 1 with duration 7; the first emitted
minute has that event in its window. -/
theorem claim4_empty_and_mean_witness :
    (calculate_moving_average [⟨60000000, 7⟩] 1 =
      .ok [⟨60000000, .int 7⟩, ⟨120000000, .int 7⟩]) ∧
    ((⟨60000000, .int 7⟩ : Point) ∈ [(⟨60000000, .int 7⟩ : Point), ⟨120000000, .int 7⟩]) ∧
    ((eventsInWindow [⟨60000000, 7⟩]
        (Point.date ⟨60000000, .int 7⟩ - 1 * usPerMin) (Point.date ⟨60000000, .int 7⟩) = [] →
      Point.average_delivery_time ⟨60000000, .int 7⟩ = PyNum.int 0) ∧
    (eventsInWindow [⟨60000000, 7⟩]
        (Point.date ⟨60000000, .int 7⟩ - 1 * usPerMin) (Point.date ⟨60000000, .int 7⟩) ≠ [] →
      (Point.average_delivery_time ⟨60000000, .int 7⟩).toRat =
        ((eventsInWindow [⟨60000000, 7⟩]
            (Point.date ⟨60000000, .int 7⟩ - 1 * usPerMin)
            (Point.date ⟨60000000, .int 7⟩)).map Event.duration).sum /
          ((eventsInWindow [⟨60000000, 7⟩]
            (Point.date ⟨60000000, .int 7⟩ - 1 * usPerMin)
            (Point.date ⟨60000000, .int 7⟩)).length : ℚ))) :=
  ⟨by decide, by decide,
    claim4_empty_and_mean [⟨60000000, 7⟩] 1 [⟨60000000, .int 7⟩, ⟨120000000, .int 7⟩]
      ⟨60000000, .int 7⟩ (by decide) (by decide)⟩

/-- C5: per emitted point, a whole-number mean is rendered as a Python `int`
(no fractional part), and a non-whole mean is rendered as a fractional
(`float`) value. -/
theorem claim5_formatting (events : List Event) (w : Int) (pts : List Point) (p : Point)
    (hok : calculate_moving_average events w = .ok pts) (hp : p ∈ pts) :
    ((avgOf (eventsInWindow events (p.date - w * usPerMin) p.date)).den = 1 →
      p.average_delivery_time =
        PyNum.int (avgOf (eventsInWindow events (p.date - w * usPerMin) p.date)).num) ∧
    ((avgOf (eventsInWindow events (p.date - w * usPerMin) p.date)).den ≠ 1 →
      p.average_delivery_time =
        PyNum.float (avgOf (eventsInWindow events (p.date - w * usPerMin) p.date))) := by
  have hspec := calc_point_spec hok p hp
  constructor
  · intro h1; rw [hspec, render, if_pos h1]
  · intro h1; rw [hspec, render, if_neg h1]

/-- C5 witness: events with durations 5 and 6 one microsecond apart; the
second emitted minute has both in its window and mean 11/2, a non-whole
value rendered as a float. -/
theorem claim5_formatting_witness :
    (calculate_moving_average [⟨60000000, 5⟩, ⟨60000001, 6⟩] 1 =
      .ok [⟨60000000, .int 5⟩, ⟨120000000, .float (Rat.divInt 11 2)⟩]) ∧
    ((⟨120000000, .float (Rat.divInt 11 2)⟩ : Point) ∈
      [(⟨60000000, .int 5⟩ : Point), ⟨120000000, .float (Rat.divInt 11 2)⟩]) ∧
    (((avgOf (eventsInWindow [⟨60000000, 5⟩, ⟨60000001, 6⟩]
        (Point.date ⟨120000000, .float (Rat.divInt 11 2)⟩ - 1 * usPerMin)
        (Point.date ⟨120000000, .float (Rat.divInt 11 2)⟩))).den = 1 →
      Point.average_delivery_time ⟨120000000, .float (Rat.divInt 11 2)⟩ =
        PyNum.int (avgOf (eventsInWindow [⟨60000000, 5⟩, ⟨60000001, 6⟩]
          (Point.date ⟨120000000, .float (Rat.divInt 11 2)⟩ - 1 * usPerMin)
          (Point.date ⟨120000000, .float (Rat.divInt 11 2)⟩))).num) ∧
    ((avgOf (eventsInWindow [⟨60000000, 5⟩, ⟨60000001, 6⟩]
        (Point.date ⟨120000000, .float (Rat.divInt 11 2)⟩ - 1 * usPerMin)
        (Point.date ⟨120000000, .float (Rat.divInt 11 2)⟩))).den ≠ 1 →
      Point.average_delivery_time ⟨120000000, .float (Rat.divInt 11 2)⟩ =
        PyNum.float (avgOf (eventsInWindow [⟨60000000, 5⟩, ⟨60000001, 6⟩]
          (Point.date ⟨120000000, .float (Rat.divInt 11 2)⟩ - 1 * usPerMin)
          (Point.date ⟨120000000, .float (Rat.divInt 11 2)⟩))))) :=
  ⟨by decide, by decide,
    claim5_formatting [⟨60000000, 5⟩, ⟨60000001, 6⟩] 1
      [⟨60000000, .int 5⟩, ⟨120000000, .float (Rat.divInt 11 2)⟩]
      ⟨120000000, .float (Rat.divInt 11 2)⟩ (by decide) (by decide)⟩

/-- C6 counterexample: on empty input the core does not fail with the
prescribed explicit `EmptyInputError`; it propagates the `ValueError` raised
by `min()` of an empty sequence. -/
theorem claim6_counterexample :
    calculate_moving_average [] 1 = .error .minEmptySeq ∧
      calculate_moving_average [] 1 ≠ .error .emptyInputError :=
  ⟨rfl, by decide⟩

/-- C6 amended: for every window size, empty input makes
`calculate_moving_average` fail with the propagated min-of-empty-sequence
`ValueError` (there is no emptiness check before the min/max computation),
and `main` crashes with it uncaught. -/
theorem claim6_amended (w : Int) :
    calculate_moving_average [] w = .error .minEmptySeq ∧
      main [] w = .crashed .minEmptySeq :=
  ⟨rfl, rfl⟩

/-- C7: with every record carrying both keys, if any record's timestamp
string fails to parse then `parse_events` raises the formatted
invalid-timestamp `ValueError` identifying the first offending record, no
partial result is returned, and `main` reports the error without writing any
output; if every timestamp parses, `parse_events` succeeds on the whole
list. -/
theorem claim7_all_or_nothing (records : List RawEvent) (w : Int)
    (hkeys : ∀ r ∈ records, hasKeys r = true) :
    ((∃ r ∈ records, recordParses r = false) →
      ∃ pre bad post, records = pre ++ bad :: post ∧
        (∀ x ∈ pre, recordParses x = true) ∧ recordParses bad = false ∧
        parse_events records = .error (.invalidTimestamp bad) ∧
        main records w = .parseErrorReported (.invalidTimestamp bad) ∧
        ∀ out, main records w ≠ .wrote out) ∧
    ((∀ r ∈ records, recordParses r = true) → ∃ evs, parse_events records = .ok evs) := by
  constructor
  · intro hbad
    obtain ⟨pre, bad, post, hsplit, hpre, hbadf, herr⟩ := parse_first_bad hkeys hbad
    have hmain : main records w = .parseErrorReported (.invalidTimestamp bad) := by
      simp [main, herr, PyErr.isValueError]
    exact ⟨pre, bad, post, hsplit, hpre, hbadf, herr, hmain, by simp [hmain]⟩
  · intro hall
    exact parse_ok_of_all fun r hr => ⟨hkeys r hr, hall r hr⟩

/-- C7 witness: a list with one bad record after one good record errors on
the bad record, and a fully good list parses. -/
theorem claim7_all_or_nothing_witness :
    (∀ r ∈ [(⟨some "2023-01-01 00:00:30.000000", some 10⟩ : RawEvent),
            ⟨some "oops", some 20⟩], hasKeys r = true) ∧
    (((∃ r ∈ [(⟨some "2023-01-01 00:00:30.000000", some 10⟩ : RawEvent),
            ⟨some "oops", some 20⟩], recordParses r = false) →
      ∃ pre bad post,
        [(⟨some "2023-01-01 00:00:30.000000", some 10⟩ : RawEvent),
          ⟨some "oops", some 20⟩] = pre ++ bad :: post ∧
        (∀ x ∈ pre, recordParses x = true) ∧ recordParses bad = false ∧
        parse_events [(⟨some "2023-01-01 00:00:30.000000", some 10⟩ : RawEvent),
          ⟨some "oops", some 20⟩] = .error (.invalidTimestamp bad) ∧
        main [(⟨some "2023-01-01 00:00:30.000000", some 10⟩ : RawEvent),
          ⟨some "oops", some 20⟩] 1 = .parseErrorReported (.invalidTimestamp bad) ∧
        ∀ out, main [(⟨some "2023-01-01 00:00:30.000000", some 10⟩ : RawEvent),
          ⟨some "oops", some 20⟩] 1 ≠ .wrote out) ∧
    ((∀ r ∈ [(⟨some "2023-01-01 00:00:30.000000", some 10⟩ : RawEvent),
            ⟨some "oops", some 20⟩], recordParses r = true) →
      ∃ evs, parse_events [(⟨some "2023-01-01 00:00:30.000000", some 10⟩ : RawEvent),
        ⟨some "oops", some 20⟩] = .ok evs)) :=
  ⟨by decide,
    claim7_all_or_nothing
      [⟨some "2023-01-01 00:00:30.000000", some 10⟩, ⟨some "oops", some 20⟩] 1 (by decide)⟩

/-- C8: the caching optimization (skipping the mean recomputation when the
window contents equal the previous minute's) produces output identical
point-for-point, dates and values both, to the stateless variant that
recomputes window membership and the mean afresh at every minute — on every
input. -/
theorem claim8_refinement (events : List Event) (w : Int) :
    calculate_moving_average events w = calculate_moving_average_naive events w :=
  calc_eq_naive events w

/-- C9: `parse_events` and `calculate_moving_average` are pure: threaded
through every iteration as a store, the input collection comes back unchanged
with the result agreeing with the direct definitions, and equal inputs give
equal outputs. -/
theorem claim9_purity :
    (∀ records : List RawEvent,
      parse_events_run records = (records, parse_events records)) ∧
    (∀ (events : List Event) (w : Int),
      calculate_moving_average_run events w = (events, calculate_moving_average events w)) ∧
    (∀ r1 r2 : List RawEvent, r1 = r2 → parse_events r1 = parse_events r2) ∧
    (∀ (e1 e2 : List Event) (w : Int), e1 = e2 →
      calculate_moving_average e1 w = calculate_moving_average e2 w) :=
  ⟨parse_events_run_spec, calculate_moving_average_run_spec,
    fun _ _ h => by rw [h], fun _ _ _ h => by rw [h]⟩

/-- C9 witness: the store-threaded runs on concrete inputs return the store
unchanged, and runs on equal inputs agree. -/
theorem claim9_purity_witness :
    (parse_events_run [⟨some "2023-01-01 00:00:30.000000", some 10⟩] =
      ([⟨some "2023-01-01 00:00:30.000000", some 10⟩],
        parse_events [⟨some "2023-01-01 00:00:30.000000", some 10⟩])) ∧
    (calculate_moving_average_run [⟨60000000, 5⟩] 1 =
      ([⟨60000000, 5⟩], calculate_moving_average [⟨60000000, 5⟩] 1)) ∧
    (parse_events [] = parse_events []) ∧
    (calculate_moving_average [] 1 = calculate_moving_average [] 1) :=
  ⟨claim9_purity.1 _, claim9_purity.2.1 _ 1,
    claim9_purity.2.2.1 [] [] rfl, claim9_purity.2.2.2 [] [] 1 rfl⟩

/-- C10 counterexample: a list that contains a record lacking the
`timestamp` key need not fail with a key-lookup error — here an earlier
record with an invalid timestamp string makes `parse_events` fail with the
formatted invalid-timestamp `ValueError` instead. -/
theorem claim10_counterexample :
    ((⟨none, some 1⟩ : RawEvent) ∈
        [(⟨some "not-a-timestamp", some 1⟩ : RawEvent), ⟨none, some 1⟩]) ∧
    (RawEvent.timestamp ⟨none, some 1⟩ = none) ∧
    parse_events [⟨some "not-a-timestamp", some 1⟩, ⟨none, some 1⟩] =
      .error (.invalidTimestamp ⟨some "not-a-timestamp", some 1⟩) ∧
    ∀ k, parse_events [⟨some "not-a-timestamp", some 1⟩, ⟨none, some 1⟩] ≠
      .error (.keyError k) := by
  refine ⟨by decide, rfl, by decide, ?_⟩
  intro k h
  rw [show parse_events [⟨some "not-a-timestamp", some 1⟩, ⟨none, some 1⟩] =
    .error (.invalidTimestamp ⟨some "not-a-timestamp", some 1⟩) from by decide] at h
  simp at h

/-- C10 amended: when the first failing record is one lacking the
`timestamp` key (or, with a parsing timestamp, lacking the `duration` key) —
that is, every earlier record parses — `parse_events` fails with a `KeyError`
that is not the formatted invalid-timestamp error, and `main` does not catch
it (its handler catches only `ValueError`), so the process crashes. -/
theorem claim10_amended (pre : List RawEvent) (bad : RawEvent) (post : List RawEvent)
    (w : Int)
    (hpre : ∀ x ∈ pre, hasKeys x = true ∧ recordParses x = true)
    (hbad : bad.timestamp = none ∨
      ∃ s t, bad.timestamp = some s ∧ strptime s = some t ∧ bad.duration = none) :
    ∃ k, parse_events (pre ++ bad :: post) = .error (.keyError k) ∧
      main (pre ++ bad :: post) w = .crashed (.keyError k) ∧
      ∀ ev, (PyErr.keyError k) ≠ .invalidTimestamp ev := by
  obtain ⟨k, hk⟩ := @parse_missing_key_head bad post hbad
  have herr : parse_events (pre ++ bad :: post) = .error (.keyError k) :=
    parse_append_good hpre hk
  refine ⟨k, herr, ?_, fun ev h => by cases h⟩
  simp [main, herr, PyErr.isValueError]

/-- C10 witness: a single record with a duration but no timestamp key makes
`parse_events` raise `KeyError`, which crashes `main` uncaught. -/
theorem claim10_amended_witness :
    (∀ x ∈ ([] : List RawEvent), hasKeys x = true ∧ recordParses x = true) ∧
    (RawEvent.timestamp ⟨none, some 1⟩ = none ∨
      ∃ s t, RawEvent.timestamp ⟨none, some 1⟩ = some s ∧ strptime s = some t ∧
        RawEvent.duration ⟨none, some 1⟩ = none) ∧
    (∃ k, parse_events ([] ++ (⟨none, some 1⟩ : RawEvent) :: []) = .error (.keyError k) ∧
      main ([] ++ (⟨none, some 1⟩ : RawEvent) :: []) 1 = .crashed (.keyError k) ∧
      ∀ ev, (PyErr.keyError k) ≠ .invalidTimestamp ev) :=
  ⟨by simp, Or.inl rfl,
    claim10_amended [] ⟨none, some 1⟩ [] 1 (by simp) (Or.inl rfl)⟩

end UnbabelCli
